import Mathlib

/- Verification development for the Roo-Code embedding/indexing pipeline and its
   auxiliary git-automation services (CommandExecutor, TemplateEngine, GitService).
   Pure functions are translated directly; effectful code is modelled by passing
   the outcomes of external calls (process execution, network requests) as
   explicit parameters. -/

/- JavaScript falsy-or on an optional string: a || b, where a missing value and
   the empty string are both falsy. -/
def jsOrS (a : Option String) (b : String) : String :=
  match a with
  | none => b
  | some s => if s = ("") then b else s

/- JavaScript falsy-or on an optional number: a || b, where a missing value and
   zero are both falsy. -/
def jsOrI (a : Option Int) (b : Int) : Int :=
  match a with
  | none => b
  | some n => if n = 0 then b else n

/- CommandExecutor.execute result record (stdout, stderr, exitCode). -/
structure CommandResult where
  stdout : String
  stderr : String
  exitCode : Int
deriving DecidableEq

/- The error object thrown by execAsync when a command fails: it may carry the
   captured stdout and stderr, always carries a message, and may carry a numeric
   exit code. -/
structure ExecFailure where
  stdout : Option String
  stderr : Option String
  message : String
  code : Option Int
deriving DecidableEq

/- Outcome of the underlying execAsync call (external process execution),
   passed explicitly to the pure model of CommandExecutor. -/
inductive ExecOutcome where
  | success (stdout stderr : String)
  | failure (err : ExecFailure)
deriving DecidableEq

/- CommandExecutor.execute: on success returns stdout and stderr with exit code
   zero; on a caught error maps the error fields into the result, with
   error.stdout or empty, error.stderr or error.message or empty, and
   error.code or one. -/
def CommandExecutor.execute : ExecOutcome → CommandResult
  | .success out err => ⟨out, err, 0⟩
  | .failure e => ⟨jsOrS e.stdout (""), jsOrS e.stderr (jsOrS (some e.message) ("")), jsOrI e.code 1⟩

/- CommandExecutor.executeForOutput: returns stdout of the result, throwing
   (modelled as Except.error) exactly when the exit code is non-zero. -/
def CommandExecutor.executeForOutput (o : ExecOutcome) : Except String String :=
  let r := CommandExecutor.execute o
  if r.exitCode ≠ 0 then
    Except.error (("Command failed with exit code ") ++ toString r.exitCode ++ (": ") ++ r.stderr)
  else Except.ok r.stdout

/- GitService.getGitStatus result record. -/
structure GitStatus where
  isGitRepository : Bool
  hasRemoteOrigin : Bool
  currentBranch : String
  hasUncommittedChanges : Bool
  hasUnpushedCommits : Bool
  workingDirectoryClean : Bool
deriving DecidableEq

/- Outcomes of the five process invocations getGitStatus may perform, in source
   order: git rev-parse --git-dir, git branch --show-current,
   git remote get-url origin, git status --porcelain, git log origin..HEAD. -/
structure GitEnv where
  revParseGitDir : ExecOutcome
  branchShowCurrent : ExecOutcome
  remoteGetUrlOrigin : ExecOutcome
  statusPorcelain : ExecOutcome
  logUnpushed : ExecOutcome

/- GitService.getGitStatus, translated from the source: if rev-parse fails the
   all-false record with empty branch is returned; otherwise each field is
   computed from its command outcome, with the catch branches of the source. -/
def GitService.getGitStatus (env : GitEnv) : GitStatus :=
  match CommandExecutor.executeForOutput env.revParseGitDir with
  | .error _ =>
    { isGitRepository := false, hasRemoteOrigin := false, currentBranch := "",
      hasUncommittedChanges := false, hasUnpushedCommits := false,
      workingDirectoryClean := false }
  | .ok _ =>
    let currentBranch :=
      match CommandExecutor.executeForOutput env.branchShowCurrent with
      | .ok out => out.trim
      | .error _ => "HEAD"
    let hasRemoteOrigin :=
      match CommandExecutor.executeForOutput env.remoteGetUrlOrigin with
      | .ok _ => true
      | .error _ => false
    let statusPair :=
      match CommandExecutor.executeForOutput env.statusPorcelain with
      | .ok out => (decide (0 < out.trim.length), decide (¬ (0 < out.trim.length)))
      | .error _ => (true, false)
    let hasUnpushedCommits :=
      if hasRemoteOrigin = true ∧ currentBranch ≠ "HEAD" then
        match CommandExecutor.executeForOutput env.logUnpushed with
        | .ok out => decide (0 < out.trim.length)
        | .error _ => false
      else false
    { isGitRepository := true, hasRemoteOrigin := hasRemoteOrigin,
      currentBranch := currentBranch, hasUncommittedChanges := statusPair.1,
      hasUnpushedCommits := hasUnpushedCommits, workingDirectoryClean := statusPair.2 }

/- ------------------------------------------------------------------ -/
/- Embedding/indexing pipeline. The pipeline source (TokenCounter,
   Embedder, BatchOrchestrator, Scanner, ServiceFactory) is not part of the
   provided sources; only its localization catalog is. The definitions below
   are therefore modelled from the specification. -/

/- Modelled from the spec: the Chunk data model of the missing indexing
   pipeline, one embeddable unit of a file, identified by sourcePath and
   index. -/
structure Chunk where
  sourcePath : String
  index : Nat
  text : String
  contentHash : String
deriving DecidableEq

/- Modelled from the spec: a single provider reply for one embedding attempt
   of the missing Embedder: a vector list in request order, a rate-limit
   signal with its status, or a credentials rejection. -/
inductive ProviderResponse where
  | ok (vectors : List (List Int))
  | rateLimited (status : Nat)
  | authFailed
deriving DecidableEq

/- A retry log entry: the attempt number and the computed delay. -/
structure RetryLog where
  attempt : Nat
  delayMs : Nat
deriving DecidableEq

/- Modelled from the spec: the error taxonomy of the missing Embedder. -/
inductive EmbedErrorKind where
  | rateLimited
  | authFailed
  | serviceUnavailable
  | modelUnavailable
  | invalidResponseShape
deriving DecidableEq

/- An Embedder failure: kind, attempts performed, last provider status. -/
structure EmbedFailure where
  kind : EmbedErrorKind
  attempts : Nat
  lastStatus : Option Nat
deriving DecidableEq

/- Outcome of embedding one batch: full success with the vectors, the attempt
   count and the retry log, or a failure with the retry log. -/
inductive EmbedOutcome where
  | success (vectors : List (List Int)) (attempts : Nat) (logs : List RetryLog)
  | failure (err : EmbedFailure) (logs : List RetryLog)
deriving DecidableEq

/- Base delay of the exponential backoff, in milliseconds. -/
def initialDelayMs : Nat := 500

/- Modelled from the spec: the exponential retry delay of the missing
   Embedder, doubling with each attempt. -/
def backoffDelay (attempt : Nat) : Nat := initialDelayMs * 2 ^ (attempt - 1)

/- Modelled from the spec: the retry loop of the missing Embedder. The
   provider reply for the n-th attempt is resp n; attempts are numbered from
   one; fuel is the number of attempts still allowed. On a rate-limit signal
   with attempts left, the attempt is logged with its delay and the batch is
   retried; with no attempts left it fails as rate limited. A credentials
   rejection fails immediately without a retry. -/
def embedGo (resp : Nat → ProviderResponse) : Nat → Nat → List RetryLog → EmbedOutcome
  | _, 0, logs => .failure ⟨.rateLimited, 0, none⟩ logs.reverse
  | attempt, fuel + 1, logs =>
    match resp attempt with
    | .ok vs => .success vs attempt logs.reverse
    | .authFailed => .failure ⟨.authFailed, attempt, none⟩ logs.reverse
    | .rateLimited status =>
      if fuel = 0 then .failure ⟨.rateLimited, attempt, some status⟩ logs.reverse
      else embedGo resp (attempt + 1) fuel (⟨attempt, backoffDelay attempt⟩ :: logs)

/- Embed one batch with at most maxRetries attempts. -/
def embedWithRetry (resp : Nat → ProviderResponse) (maxRetries : Nat) : EmbedOutcome :=
  embedGo resp 1 maxRetries []

/- Modelled from the spec: the VectorPoint persisted in the vector store, with
   an id derived from sourcePath and index and a payload naming the source. -/
structure VectorPoint where
  id : String
  vector : List Int
  sourcePath : String
  chunkIndex : Nat
deriving DecidableEq

/- Convert one chunk and its vector into the point upserted for it. -/
def mkPoint (c : Chunk) (v : List Int) : VectorPoint :=
  ⟨c.sourcePath ++ (":") ++ Nat.repr c.index, v, c.sourcePath, c.index⟩

/- Result reported for one dispatched batch. -/
inductive BatchOutcome where
  | succeeded (attempts : Nat)
  | failed (kind : EmbedErrorKind) (attempts : Nat)
deriving DecidableEq

/- Modelled from the spec: the missing BatchOrchestrator handling of a single
   dispatched batch. The upsert is issued only after the complete embedding
   result set is available: a full success yields one point per chunk in input
   order, a response of the wrong length is an invalid-shape failure, and any
   failure upserts nothing. -/
def processBatch (batch : List Chunk) (resp : Nat → ProviderResponse) (maxRetries : Nat) :
    List VectorPoint × BatchOutcome :=
  match embedWithRetry resp maxRetries with
  | .success vs attempts _ =>
    if vs.length = batch.length then (List.zipWith mkPoint batch vs, .succeeded attempts)
    else ([], .failed .invalidResponseShape attempts)
  | .failure err _ => ([], .failed err.kind err.attempts)

/- Modelled from the spec: the admission filter of the missing
   BatchOrchestrator. Each chunk whose token count exceeds the per-item limit
   is excluded and a diagnostic carrying its position and token count is
   emitted; processing of the remaining chunks continues. -/
def admitChunks (count : String → Nat) (maxTok : Nat) : Nat → List Chunk → List Chunk × List (Nat × Nat)
  | _, [] => ([], [])
  | pos, c :: rest =>
    let r := admitChunks count maxTok (pos + 1) rest
    if maxTok < count c.text then (r.1, (pos, count c.text) :: r.2) else (c :: r.1, r.2)

/- Modelled from the spec: greedy bin packing of admitted chunks, in input
   order, of the missing BatchOrchestrator, respecting a maximum item count
   and a maximum cumulative token budget per batch. -/
def batchGo (count : String → Nat) (maxItems maxBT : Nat) :
    List Chunk → List Chunk → Nat → List (List Chunk)
  | [], cur, _ => if cur = [] then [] else [cur.reverse]
  | c :: rest, cur, curTok =>
    if cur = [] then batchGo count maxItems maxBT rest [c] (count c.text)
    else if maxItems < cur.length + 1 ∨ maxBT < curTok + count c.text then
      cur.reverse :: batchGo count maxItems maxBT rest [c] (count c.text)
    else batchGo count maxItems maxBT rest (c :: cur) (curTok + count c.text)

/- Group a chunk list into batches. -/
def makeBatches (count : String → Nat) (maxItems maxBT : Nat) (chunks : List Chunk) :
    List (List Chunk) :=
  batchGo count maxItems maxBT chunks [] 0

/- Modelled from the spec: the provider kinds of the missing ServiceFactory. -/
inductive Provider where
  | openai
  | ollama
  | openaiCompatible
  | gemini
deriving DecidableEq

/- Printable provider name, used in configuration errors. -/
def providerName : Provider → String
  | .openai => "openai"
  | .ollama => "ollama"
  | .openaiCompatible => "openai-compatible"
  | .gemini => "gemini"

/- Configuration errors raised by the factory before any network call. -/
inductive ConfigError where
  | missingField (field : String)
  | dimensionNotDetermined (modelId : String) (provider : String)
  | collectionError
deriving DecidableEq

/- Modelled from the spec: the provider configuration consumed by the missing
   ServiceFactory. -/
structure IndexConfig where
  provider : Provider
  endpointUrl : Option String
  apiKey : Option String
  modelId : Option String
  dimension : Option Nat
deriving DecidableEq

/- Modelled from the spec: the per-provider required-settings check of the
   missing ServiceFactory, returning the name of the first missing required
   field, if any. -/
def requiredMissing (cfg : IndexConfig) : Option String :=
  match cfg.provider with
  | .openai =>
    if cfg.apiKey = none then some ("apiKey")
    else if cfg.modelId = none then some ("modelId") else none
  | .ollama =>
    if cfg.endpointUrl = none then some ("endpointUrl")
    else if cfg.modelId = none then some ("modelId") else none
  | .openaiCompatible =>
    if cfg.endpointUrl = none then some ("endpointUrl")
    else if cfg.apiKey = none then some ("apiKey")
    else if cfg.modelId = none then some ("modelId") else none
  | .gemini =>
    if cfg.apiKey = none then some ("apiKey")
    else if cfg.modelId = none then some ("modelId") else none

/- Look up a vector dimension in the model-profile table keyed by provider and
   model id. -/
def lookupDim (profiles : List ((Provider × String) × Nat)) (p : Provider) (m : String) :
    Option Nat :=
  List.lookup (p, m) profiles

/- Modelled from the spec: vector dimension resolution of the missing
   ServiceFactory: an explicit configured dimension wins, otherwise the
   model-profile table keyed by provider and model id is consulted, otherwise
   a configuration error naming the model and the provider is raised. -/
def resolveDimension (cfg : IndexConfig) (profiles : List ((Provider × String) × Nat)) :
    Except ConfigError Nat :=
  match cfg.dimension with
  | some d => Except.ok d
  | none =>
    match cfg.modelId with
    | some m =>
      match lookupDim profiles cfg.provider m with
      | some d => Except.ok d
      | none => Except.error (.dimensionNotDetermined m (providerName cfg.provider))
    | none => Except.error (.dimensionNotDetermined ("") (providerName cfg.provider))

/- Modelled from the spec: the missing ServiceFactory construction sequence.
   Validation and dimension resolution run first; only then is the single
   network call (ensureCollection on the resolved dimension, whose outcome is
   the ensureOk parameter) issued. The second component counts the network
   calls made. -/
def createServices (cfg : IndexConfig) (profiles : List ((Provider × String) × Nat))
    (ensureOk : Nat → Bool) : Except ConfigError Nat × Nat :=
  match requiredMissing cfg with
  | some f => (Except.error (.missingField f), 0)
  | none =>
    match resolveDimension cfg profiles with
    | Except.error e => (Except.error e, 0)
    | Except.ok d => if ensureOk d then (Except.ok d, 1) else (Except.error .collectionError, 1)

/- Network-facing actions the Scanner issues for one file. -/
inductive ScanAction where
  | deleteBySource (path : String)
  | emitChunks (path : String) (chunks : List Chunk)
deriving DecidableEq

/- Modelled from the spec: the per-file decision of the missing Scanner. The
   hash parameter is the fingerprint function, chunker produces the fresh
   chunks of a file, prev is the last indexed fingerprint and cur the current
   file content, if the file still exists. A changed file is deleted from the
   store first and then re-emitted; a removed file is deleted only; an
   unchanged file is skipped with no action. -/
def scanFile (hash : String → String) (chunker : String → String → List Chunk)
    (path : String) (prev : Option String) (cur : Option String) : List ScanAction :=
  match cur with
  | none =>
    match prev with
    | some _ => [.deleteBySource path]
    | none => []
  | some content =>
    match prev with
    | some fp =>
      if fp = hash content then []
      else [.deleteBySource path, .emitChunks path (chunker path content)]
    | none => [.deleteBySource path, .emitChunks path (chunker path content)]


/- ------------------------------------------------------------------ -/
/- TemplateEngine (translated from the source). Template strings are
   processed as character lists; JavaScript runtime values are modelled by
   the JValue inductive (numbers as integers, which covers every value the
   service layer feeds the engine). -/

/-- C8: CommandExecutor.execute always returns a CommandResult (it is a total
function): on success the exit code is zero, on failure the caught error is
mapped into stdout, stderr and a non-zero exit code defaulting to one; and
executeForOutput returns the underlying stdout exactly when that result's exit
code is zero, and throws otherwise. -/
theorem command_executor_contract (o : ExecOutcome) :
    (∀ out err, o = ExecOutcome.success out err → CommandExecutor.execute o = ⟨out, err, 0⟩) ∧
    (∀ e, o = ExecOutcome.failure e →
      (CommandExecutor.execute o).exitCode ≠ 0 ∧
      CommandExecutor.execute o =
        ⟨jsOrS e.stdout (""), jsOrS e.stderr (jsOrS (some e.message) ("")), jsOrI e.code 1⟩ ∧
      (e.code = none → (CommandExecutor.execute o).exitCode = 1) ∧
      (e.code = some 0 → (CommandExecutor.execute o).exitCode = 1)) ∧
    ((∃ s, CommandExecutor.executeForOutput o = Except.ok s) ↔
      (CommandExecutor.execute o).exitCode = 0) ∧
    (∀ s, CommandExecutor.executeForOutput o = Except.ok s →
      s = (CommandExecutor.execute o).stdout) ∧
    ((CommandExecutor.execute o).exitCode ≠ 0 →
      ∃ msg, CommandExecutor.executeForOutput o = Except.error msg) := by
  refine ⟨?_, ?_, ?_, ?_, ?_⟩
  · rintro out err rfl
    rfl
  · rintro e rfl
    refine ⟨?_, rfl, ?_, ?_⟩
    · show jsOrI e.code 1 ≠ 0
      rcases e.code with _ | n
      · simp [jsOrI]
      · by_cases hn : n = 0 <;> simp [jsOrI, hn]
    · intro h
      simp [CommandExecutor.execute, h, jsOrI]
    · intro h
      simp [CommandExecutor.execute, h, jsOrI]
  · constructor
    · rintro ⟨s, hs⟩
      by_cases h : (CommandExecutor.execute o).exitCode = 0
      · exact h
      · simp [CommandExecutor.executeForOutput, h] at hs
    · intro h
      exact ⟨(CommandExecutor.execute o).stdout, by simp [CommandExecutor.executeForOutput, h]⟩
  · intro s hs
    by_cases h : (CommandExecutor.execute o).exitCode = 0
    · simp [CommandExecutor.executeForOutput, h] at hs
      exact hs.symm
    · simp [CommandExecutor.executeForOutput, h] at hs
  · intro h
    refine ⟨("Command failed with exit code ") ++ toString (CommandExecutor.execute o).exitCode
      ++ (": ") ++ (CommandExecutor.execute o).stderr, ?_⟩
    simp [CommandExecutor.executeForOutput, h]

/-- C8 witness: at a concrete failed execution the mapped exit code is non-zero. -/
theorem command_executor_contract_witness :
    (CommandExecutor.execute
      (ExecOutcome.failure ⟨some ("out"), none, "boom", none⟩)).exitCode ≠ 0 :=
  ((command_executor_contract
      (ExecOutcome.failure ⟨some ("out"), none, "boom", none⟩)).2.1 _ rfl).1

/-- C10: every GitStatus returned by GitService.getGitStatus satisfies: when
isGitRepository is true, workingDirectoryClean is the negation of
hasUncommittedChanges; when isGitRepository is false, the four remaining flags
are all false and currentBranch is empty. -/
theorem git_status_invariant (env : GitEnv) :
    ((GitService.getGitStatus env).isGitRepository = true →
      (GitService.getGitStatus env).workingDirectoryClean =
        !(GitService.getGitStatus env).hasUncommittedChanges) ∧
    ((GitService.getGitStatus env).isGitRepository = false →
      (GitService.getGitStatus env).hasRemoteOrigin = false ∧
      (GitService.getGitStatus env).hasUncommittedChanges = false ∧
      (GitService.getGitStatus env).hasUnpushedCommits = false ∧
      (GitService.getGitStatus env).workingDirectoryClean = false ∧
      (GitService.getGitStatus env).currentBranch = "") := by
  rcases hrev : CommandExecutor.executeForOutput env.revParseGitDir with e | s
  · constructor
    · intro h
      simp [GitService.getGitStatus, hrev] at h
    · intro _
      simp [GitService.getGitStatus, hrev]
  · constructor
    · intro _
      rcases hst : CommandExecutor.executeForOutput env.statusPorcelain with e' | s' <;>
        simp [GitService.getGitStatus, hrev, hst]
      rw [← decide_not, decide_eq_decide]
      omega
    · intro h
      simp [GitService.getGitStatus, hrev] at h

/-- C10 witness: at a concrete environment outside a git repository, all flags
are false and the branch is empty. -/
theorem git_status_invariant_witness :
    (GitService.getGitStatus
      ⟨ExecOutcome.failure ⟨none, none, "not a git repo", some 128⟩,
       ExecOutcome.success ("main") (""), ExecOutcome.success ("url") (""),
       ExecOutcome.success ("") (""), ExecOutcome.success ("") ("")⟩).currentBranch = "" :=
  ((git_status_invariant
      ⟨ExecOutcome.failure ⟨none, none, "not a git repo", some 128⟩,
       ExecOutcome.success ("main") (""), ExecOutcome.success ("url") (""),
       ExecOutcome.success ("") (""), ExecOutcome.success ("") ("")⟩).2 (by rfl)).2.2.2.2

/-- Helper: the admitted chunks are exactly the input chunks whose token count
is within the per-item limit, in input order. -/
lemma admitChunks_fst (count : String → Nat) (maxTok : Nat) :
    ∀ (pos : Nat) (l : List Chunk),
      (admitChunks count maxTok pos l).1 = l.filter (fun c => count c.text ≤ maxTok) := by
  intro pos l
  induction l generalizing pos with
  | nil => rfl
  | cons c rest ih =>
    by_cases h : maxTok < count c.text
    · have h' : ¬ (count c.text ≤ maxTok) := by omega
      simp [admitChunks, h, h', ih]
    · have h' : count c.text ≤ maxTok := by omega
      simp [admitChunks, h, h', ih]

/-- Helper: each oversized chunk produces a diagnostic with its position and
token count. -/
lemma admitChunks_diag (count : String → Nat) (maxTok : Nat) :
    ∀ (l : List Chunk) (pos i : Nat) (hi : i < l.length),
      maxTok < count l[i].text →
      (pos + i, count l[i].text) ∈ (admitChunks count maxTok pos l).2 := by
  intro l
  induction l with
  | nil => intro pos i hi; simp at hi
  | cons c rest ih =>
    intro pos i hi hbig
    cases i with
    | zero =>
      simp only [List.getElem_cons_zero] at hbig ⊢
      simp [admitChunks, hbig]
    | succ j =>
      simp only [List.getElem_cons_succ] at hbig ⊢
      have hj : j < rest.length := by simpa using hi
      have hmem := ih (pos + 1) j hj hbig
      have hpos : pos + (j + 1) = (pos + 1) + j := by omega
      rw [hpos]
      by_cases h : maxTok < count c.text <;> simp [admitChunks, h, hmem]

/-- Helper: greedy batching neither loses, duplicates nor reorders chunks: the
concatenation of the produced batches is the pending batch followed by the
input. -/
lemma batchGo_flatten (count : String → Nat) (maxItems maxBT : Nat) :
    ∀ (l cur : List Chunk) (tok : Nat),
      (batchGo count maxItems maxBT l cur tok).flatten = cur.reverse ++ l := by
  intro l
  induction l with
  | nil => intro cur tok; by_cases h : cur = [] <;> simp [batchGo, h]
  | cons c rest ih =>
    intro cur tok
    by_cases h : cur = []
    · simp [batchGo, h, ih]
    · by_cases h2 : maxItems < cur.length + 1 ∨ maxBT < tok + count c.text
      · simp [batchGo, h, h2, ih]
      · simp [batchGo, h, h2, ih]

/-- C1: every chunk admitted into any batch satisfies the per-item token
limit; every oversized chunk is excluded from all batches and a per-item
diagnostic with its position is emitted; processing of the remaining chunks
continues, so the admitted list is exactly the within-limit chunks in input
order. -/
theorem orchestrator_admission_invariant (count : String → Nat)
    (maxTok maxItems maxBT : Nat) (chunks : List Chunk) :
    (admitChunks count maxTok 0 chunks).1 = chunks.filter (fun c => count c.text ≤ maxTok) ∧
    (∀ b ∈ makeBatches count maxItems maxBT (admitChunks count maxTok 0 chunks).1,
      ∀ c ∈ b, count c.text ≤ maxTok) ∧
    (∀ (i : Nat) (hi : i < chunks.length), maxTok < count chunks[i].text →
      (i, count chunks[i].text) ∈ (admitChunks count maxTok 0 chunks).2 ∧
      ∀ b ∈ makeBatches count maxItems maxBT (admitChunks count maxTok 0 chunks).1,
        chunks[i] ∉ b) := by
  have hfst := admitChunks_fst count maxTok 0 chunks
  have hmem : ∀ b ∈ makeBatches count maxItems maxBT (admitChunks count maxTok 0 chunks).1,
      ∀ c ∈ b, count c.text ≤ maxTok := by
    intro b hb c hc
    have hjoin := batchGo_flatten count maxItems maxBT (admitChunks count maxTok 0 chunks).1 [] 0
    have hcj : c ∈ (makeBatches count maxItems maxBT (admitChunks count maxTok 0 chunks).1).flatten :=
      List.mem_flatten.mpr ⟨b, hb, hc⟩
    rw [makeBatches, hjoin] at hcj
    simp only [List.reverse_nil, List.nil_append] at hcj
    rw [hfst] at hcj
    simpa using (List.mem_filter.mp hcj).2
  refine ⟨hfst, hmem, ?_⟩
  intro i hi hbig
  refine ⟨by simpa using admitChunks_diag count maxTok chunks 0 i hi hbig, ?_⟩
  intro b hb hcin
  have := hmem b hb _ hcin
  omega

/-- C1 witness: with a length token counter and limit three, the oversized
second chunk is reported at position one with its token count. -/
theorem orchestrator_admission_invariant_witness :
    (1, 7) ∈ (admitChunks String.length 3 0
      [⟨"f", 0, "hi", ""⟩, ⟨"f", 1, "toolong", ""⟩]).2 :=
  ((orchestrator_admission_invariant String.length 3 10 100
      [⟨"f", 0, "hi", ""⟩, ⟨"f", 1, "toolong", ""⟩]).2.2 1 (by decide) (by decide)).1

/-- C3: a dispatched batch either upserts nothing, or the embedding fully
succeeded with exactly one vector per admitted chunk and the upserted points
pair the chunks with their vectors in input order; the upsert is never a
partial-batch write. -/
theorem batch_all_or_nothing (batch : List Chunk) (resp : Nat → ProviderResponse)
    (maxRetries : Nat) :
    (processBatch batch resp maxRetries).1 = [] ∨
    ∃ vs attempts logs,
      embedWithRetry resp maxRetries = EmbedOutcome.success vs attempts logs ∧
      vs.length = batch.length ∧
      (processBatch batch resp maxRetries).1 = List.zipWith mkPoint batch vs ∧
      (processBatch batch resp maxRetries).1.length = batch.length := by
  cases h : embedWithRetry resp maxRetries with
  | success vs attempts logs =>
    by_cases hl : vs.length = batch.length
    · right
      refine ⟨vs, attempts, logs, rfl, hl, ?_, ?_⟩
      · simp [processBatch, h, hl]
      · simp [processBatch, h, hl, List.length_zipWith]
    · left; simp [processBatch, h, hl]
  | failure err logs => left; simp [processBatch, h]

/-- C4: an authentication failure on the first attempt makes embed fail
immediately with kind authFailed after a single attempt, with no retry logged,
regardless of the retry budget and of later provider replies, and no vectors
of that batch are upserted. -/
theorem auth_failure_not_retried (resp : Nat → ProviderResponse) (maxRetries : Nat)
    (hm : 1 ≤ maxRetries) (hauth : resp 1 = ProviderResponse.authFailed) :
    embedWithRetry resp maxRetries =
      EmbedOutcome.failure ⟨EmbedErrorKind.authFailed, 1, none⟩ [] ∧
    ∀ batch, (processBatch batch resp maxRetries).1 = [] := by
  obtain ⟨f, rfl⟩ : ∃ f, maxRetries = f + 1 := ⟨maxRetries - 1, by omega⟩
  constructor
  · simp [embedWithRetry, embedGo, hauth]
  · intro batch
    simp [processBatch, embedWithRetry, embedGo, hauth]

/-- C4 witness: with a provider that always rejects the credentials and a
budget of three retries, embed fails at the first attempt with kind
authFailed. -/
theorem auth_failure_not_retried_witness :
    embedWithRetry (fun _ => ProviderResponse.authFailed) 3 =
      EmbedOutcome.failure ⟨EmbedErrorKind.authFailed, 1, none⟩ [] :=
  (auth_failure_not_retried (fun _ => ProviderResponse.authFailed) 3 (by decide) rfl).1

/-- C5: when a setting required by the selected provider is absent, the
factory fails with a configuration error naming the missing field and zero
calls reach the network layer; conversely any run that performed a network
call had passed the required-settings validation. -/
theorem service_factory_fails_fast (cfg : IndexConfig)
    (profiles : List ((Provider × String) × Nat)) (ensureOk : Nat → Bool) :
    (∀ f, requiredMissing cfg = some f →
      createServices cfg profiles ensureOk = (Except.error (ConfigError.missingField f), 0)) ∧
    ((createServices cfg profiles ensureOk).2 ≠ 0 → requiredMissing cfg = none) := by
  constructor
  · intro f hf
    simp [createServices, hf]
  · intro h
    rcases hr : requiredMissing cfg with _ | f
    · rfl
    · simp [createServices, hr] at h

/-- C5 witness: an OpenAI configuration without an API key fails naming the
apiKey field with zero network calls. -/
theorem service_factory_fails_fast_witness :
    createServices ⟨Provider.openai, none, none, some ("m"), some 10⟩ [] (fun _ => true) =
      (Except.error (ConfigError.missingField ("apiKey")), 0) :=
  (service_factory_fails_fast ⟨Provider.openai, none, none, some ("m"), some 10⟩ []
      (fun _ => true)).1 ("apiKey") rfl

/-- C6: the vector dimension is resolved deterministically: an explicit
configured dimension is used; otherwise the model-profile table keyed by
provider and model id is consulted; if neither yields a dimension the factory
fails with a configuration error identifying the model and the provider, with
zero network calls, so indexing does not start. -/
theorem vector_dimension_resolution (cfg : IndexConfig)
    (profiles : List ((Provider × String) × Nat)) (m : String) :
    (∀ d, cfg.dimension = some d → resolveDimension cfg profiles = Except.ok d) ∧
    (cfg.dimension = none → cfg.modelId = some m →
      (∀ d, lookupDim profiles cfg.provider m = some d →
        resolveDimension cfg profiles = Except.ok d) ∧
      (lookupDim profiles cfg.provider m = none →
        resolveDimension cfg profiles =
          Except.error (ConfigError.dimensionNotDetermined m (providerName cfg.provider)) ∧
        ∀ ensureOk, requiredMissing cfg = none →
          createServices cfg profiles ensureOk =
            (Except.error (ConfigError.dimensionNotDetermined m (providerName cfg.provider)),
              0))) := by
  constructor
  · intro d hd; simp [resolveDimension, hd]
  · intro hnone hm
    constructor
    · intro d hd; simp [resolveDimension, hnone, hm, hd]
    · intro hl
      have hres : resolveDimension cfg profiles =
          Except.error (ConfigError.dimensionNotDetermined m (providerName cfg.provider)) := by
        simp [resolveDimension, hnone, hm, hl]
      exact ⟨hres, fun ensureOk hreq => by simp [createServices, hreq, hres]⟩

/-- C6 witness: a Gemini configuration with no explicit dimension and a model
absent from an empty profile table fails identifying the model and provider,
with zero network calls. -/
theorem vector_dimension_resolution_witness :
    createServices ⟨Provider.gemini, none, some ("k"), some ("model-x"), none⟩ [] (fun _ => true) =
      (Except.error (ConfigError.dimensionNotDetermined ("model-x") ("gemini")), 0) :=
  ((((vector_dimension_resolution ⟨Provider.gemini, none, some ("k"), some ("model-x"), none⟩
      [] ("model-x")).2 rfl rfl).2) rfl).2 (fun _ => true) rfl

/-- C7: the per-file scanner decision: a changed file (fingerprint differs or
absent) is first deleted from the store and then re-emitted as fresh chunks;
a removed file is deleted only; an unchanged file is skipped with no action. -/
theorem scanner_change_detection (hash : String → String)
    (chunker : String → String → List Chunk) (path : String)
    (prev : Option String) (cur : Option String) :
    (∀ content, cur = some content →
      ((prev = none ∨ ∃ fp, prev = some fp ∧ fp ≠ hash content) →
        scanFile hash chunker path prev cur =
          [ScanAction.deleteBySource path,
           ScanAction.emitChunks path (chunker path content)]) ∧
      (∀ fp, prev = some fp → fp = hash content →
        scanFile hash chunker path prev cur = [])) ∧
    (cur = none →
      (∀ fp, prev = some fp →
        scanFile hash chunker path prev cur = [ScanAction.deleteBySource path]) ∧
      (prev = none → scanFile hash chunker path prev cur = [])) := by
  constructor
  · rintro content rfl
    constructor
    · rintro (rfl | ⟨fp, rfl, hne⟩)
      · rfl
      · simp [scanFile, hne]
    · rintro fp rfl heq
      simp [scanFile, heq]
  · rintro rfl
    exact ⟨by rintro fp rfl; rfl, by rintro rfl; rfl⟩

/-- C7 witness: a file whose stored fingerprint differs from the hash of its
current content is deleted from the store and then re-emitted. -/
theorem scanner_change_detection_witness :
    scanFile (fun s => s) (fun _ _ => []) ("a.ts") (some ("old")) (some ("new")) =
      [ScanAction.deleteBySource ("a.ts"), ScanAction.emitChunks ("a.ts") []] :=
  ((scanner_change_detection (fun s => s) (fun _ _ => []) ("a.ts") (some ("old"))
      (some ("new"))).1 ("new") rfl).1 (Or.inr ⟨"old", rfl, by decide⟩)

/-- Helper: the backoff delay is strictly increasing over attempt numbers from
one upward. -/
lemma backoffDelay_lt_of_lt (a b : Nat) (ha : 1 ≤ a) (hab : a < b) :
    backoffDelay a < backoffDelay b := by
  unfold backoffDelay initialDelayMs
  exact Nat.mul_lt_mul_of_pos_left (Nat.pow_lt_pow_right (by norm_num) (by omega)) (by norm_num)

/-- Helper: if the provider rate limits the first j attempts starting at a
given attempt number and then succeeds, the retry loop returns that success,
with the attempt count and one log entry per retried attempt carrying its
attempt number and computed delay. -/
lemma embedGo_ok (resp : Nat → ProviderResponse) (vs : List (List Int)) :
    ∀ (j attempt fuel : Nat) (logs : List RetryLog),
      j < fuel →
      (∀ i, i < j → ∃ s, resp (attempt + i) = ProviderResponse.rateLimited s) →
      resp (attempt + j) = ProviderResponse.ok vs →
      embedGo resp attempt fuel logs =
        EmbedOutcome.success vs (attempt + j)
          (logs.reverse ++ (List.range' attempt j).map (fun a => ⟨a, backoffDelay a⟩)) := by
  intro j
  induction j with
  | zero =>
    intro attempt fuel logs hf _ hok
    obtain ⟨f, rfl⟩ : ∃ f, fuel = f + 1 := ⟨fuel - 1, by omega⟩
    rw [Nat.add_zero] at hok
    simp [embedGo, hok]
  | succ k ih =>
    intro attempt fuel logs hf hrl hok
    obtain ⟨f, rfl⟩ : ∃ f, fuel = f + 1 := ⟨fuel - 1, by omega⟩
    obtain ⟨s, hs⟩ := hrl 0 (by omega)
    rw [Nat.add_zero] at hs
    have hf1 : ¬ (f = 0) := by omega
    have ih' := ih (attempt + 1) f (⟨attempt, backoffDelay attempt⟩ :: logs) (by omega)
      (fun i hi => by
        have h2 := hrl (i + 1) (by omega)
        rwa [show attempt + (i + 1) = attempt + 1 + i from by omega] at h2)
      (by rwa [show attempt + 1 + k = attempt + (k + 1) from by omega])
    have step : embedGo resp attempt (f + 1) logs =
        embedGo resp (attempt + 1) f (⟨attempt, backoffDelay attempt⟩ :: logs) := by
      simp [embedGo, hs, hf1]
    rw [step, ih', show attempt + (k + 1) = attempt + 1 + k from by omega, List.range'_succ]
    simp

/-- Helper: if the provider rate limits every attempt the retry loop can make,
it fails as rate limited at the last attempt, with one log entry per retried
attempt. -/
lemma embedGo_rl (resp : Nat → ProviderResponse) (st : Nat → Nat) :
    ∀ (fuel attempt : Nat) (logs : List RetryLog),
      1 ≤ fuel →
      (∀ i, i < fuel → resp (attempt + i) = ProviderResponse.rateLimited (st (attempt + i))) →
      embedGo resp attempt fuel logs =
        EmbedOutcome.failure
          ⟨EmbedErrorKind.rateLimited, attempt + (fuel - 1), some (st (attempt + (fuel - 1)))⟩
          (logs.reverse ++ (List.range' attempt (fuel - 1)).map (fun a => ⟨a, backoffDelay a⟩)) := by
  intro fuel
  induction fuel with
  | zero => intro attempt logs h; omega
  | succ f ih =>
    intro attempt logs _ hrl
    have h0 := hrl 0 (by omega)
    rw [Nat.add_zero] at h0
    by_cases hf : f = 0
    · subst hf
      simp [embedGo, h0]
    · obtain ⟨g, rfl⟩ : ∃ g, f = g + 1 := ⟨f - 1, by omega⟩
      have ih' := ih (attempt + 1) (⟨attempt, backoffDelay attempt⟩ :: logs) (by omega)
        (fun i hi => by
          have h2 := hrl (i + 1) (by omega)
          rwa [show attempt + (i + 1) = attempt + 1 + i from by omega] at h2)
      have step : embedGo resp attempt (g + 1 + 1) logs =
          embedGo resp (attempt + 1) (g + 1) (⟨attempt, backoffDelay attempt⟩ :: logs) := by
        simp [embedGo, h0]
      rw [step, ih', show attempt + 1 + (g + 1 - 1) = attempt + (g + 1 + 1 - 1) from by omega,
        show (g + 1 + 1 - 1) = (g + 1 - 1) + 1 from by omega, List.range'_succ]
      simp

/-- C2: the uniform retry policy: if the provider rate limits the first k
attempts with k below the budget and then succeeds, embed succeeds with
exactly k plus one attempts recorded and one log entry per retried attempt
carrying the attempt number and the computed delay, and those delays strictly
increase; if the provider rate limits all maxRetries attempts, embed fails
with kind rateLimited after maxRetries attempts carrying the last status, and
no vectors of that batch are upserted. -/
theorem embedder_retry_policy (resp : Nat → ProviderResponse) (maxRetries : Nat)
    (hm : 1 ≤ maxRetries) :
    (∀ k vs, k < maxRetries →
      (∀ i, i < k → ∃ s, resp (1 + i) = ProviderResponse.rateLimited s) →
      resp (1 + k) = ProviderResponse.ok vs →
      embedWithRetry resp maxRetries =
        EmbedOutcome.success vs (1 + k)
          ((List.range' 1 k).map (fun a => ⟨a, backoffDelay a⟩)) ∧
      List.Pairwise (fun p q : RetryLog => p.delayMs < q.delayMs)
        ((List.range' 1 k).map (fun a => (⟨a, backoffDelay a⟩ : RetryLog)))) ∧
    (∀ st : Nat → Nat,
      (∀ i, i < maxRetries → resp (1 + i) = ProviderResponse.rateLimited (st (1 + i))) →
      embedWithRetry resp maxRetries =
        EmbedOutcome.failure ⟨EmbedErrorKind.rateLimited, maxRetries, some (st maxRetries)⟩
          ((List.range' 1 (maxRetries - 1)).map (fun a => ⟨a, backoffDelay a⟩)) ∧
      ∀ batch, (processBatch batch resp maxRetries).1 = []) := by
  constructor
  · intro k vs hk hrl hok
    constructor
    · have h := embedGo_ok resp vs k 1 maxRetries [] (by omega) hrl hok
      simpa [embedWithRetry] using h
    · rw [List.pairwise_map]
      refine List.Pairwise.imp_of_mem ?_ (List.pairwise_lt_range' 1 k)
      intro a b ha _ hab
      have ha1 : 1 ≤ a := (List.mem_range'_1.mp ha).1
      exact backoffDelay_lt_of_lt a b ha1 hab
  · intro st hrl
    have h := embedGo_rl resp st maxRetries 1 [] hm hrl
    rw [show 1 + (maxRetries - 1) = maxRetries from by omega] at h
    simp only [List.reverse_nil, List.nil_append] at h
    have hw : embedWithRetry resp maxRetries =
        EmbedOutcome.failure ⟨EmbedErrorKind.rateLimited, maxRetries, some (st maxRetries)⟩
          ((List.range' 1 (maxRetries - 1)).map (fun a => ⟨a, backoffDelay a⟩)) := h
    exact ⟨hw, fun batch => by simp [processBatch, hw]⟩

/-- C2 witness: a provider that rate limits the first attempt and then
succeeds, under a budget of two retries, succeeds at attempt two with one
logged retry carrying the five hundred millisecond base delay. -/
theorem embedder_retry_policy_witness :
    embedWithRetry (fun n => if n = 1 then ProviderResponse.rateLimited 429
      else ProviderResponse.ok [[3]]) 2 =
      EmbedOutcome.success [[3]] 2 [⟨1, 500⟩] :=
  ((embedder_retry_policy (fun n => if n = 1 then ProviderResponse.rateLimited 429
      else ProviderResponse.ok [[3]]) 2 (by decide)).1 1 [[3]] (by decide)
    (fun i hi => by
      have h0 : i = 0 := by omega
      subst h0
      exact ⟨429, rfl⟩) rfl).1

